import Mathlib

/-!
Verification of the cindex driver of codesearch-rs against its
natural-language specification.

The Rust sources embedded here are `src/bin/cindex.rs` (the index-building
command-line driver), `src/index/mod.rs` (the `csearch_index` default-path
lookup) and the logger crate.  Pure functions are translated directly;
effectful code (environment lookup, filesystem operations, the
producer/consumer build pipeline) is embedded as explicit state passing:
the environment is a function `String → Option String`, the filesystem a
function `String → Option String` from paths to contents, the directory
walker an input listing (the `walkdir` crate yields entries in operating
system readdir order, which is unspecified, so the yield order is a model
input), and a Rust `panic!` or `process::exit` an `Except` error value.
-/

/-! ## Environment and default index path (`src/index/mod.rs`) -/

/-- Embedding of `csearch_index` from `src/index/mod.rs`:
`env::var("CSEARCHINDEX").or_else(|_| env::var("HOME").or_else(|_|
env::var("USERPROFILE")).map(|s| s + "/.csearchindex")).expect(...)`.
The process environment is passed explicitly as a partial map; `none`
models the `expect` panic (no valid path to index). -/
def csearch_index (env : String → Option String) : Option String :=
  match env "CSEARCHINDEX" with
  | some v => some v
  | none =>
    match env "HOME" with
    | some h => some (h ++ "/.csearchindex")
    | none =>
      match env "USERPROFILE" with
      | some u => some (u ++ "/.csearchindex")
      | none => none

/-! ## Query-side index open (`open_index_or_fail` in `cindex.rs`) -/

/-- Model of an opened index reader: the claims only consult the
indexed-paths list recorded in the index, so that is the only field. -/
structure IndexReaderModel where
  indexedPaths : List String
deriving DecidableEq, Repr

/-- Embedding of `open_index_or_fail` from `cindex.rs`: the result of
`IndexReader::open` is passed in as an `Except`; on error the function
logs and calls `std::process::exit(101)`, modelled as `Except.error 101`
(the nonzero process exit status). -/
def open_index_or_fail (res : Except String IndexReaderModel) :
    Except Nat IndexReaderModel :=
  match res with
  | .ok i => .ok i
  | .error _ => .error 101

/-! ## Numeric option parsing (`get_value_from_matches` in `cindex.rs`) -/

/-- A `panic!` raised by the cindex driver.  `cantConvert s` stands for the
message naming the offending value string `s` that
`get_value_from_matches` panics with when the value does not parse. -/
inductive CIndexPanic where
  | cantConvert (s : String)
deriving DecidableEq, Repr

/-- Embedding of `get_value_from_matches` from `cindex.rs`.  The clap
lookup `matches.value_of(name)` is passed in as `matchValue`, the
`str::parse::<F>` instance as `parse`.  A present value that parses gives
`ok (some t)`; a present value that does not parse panics (`error`);
an absent option gives `ok none`. -/
def get_value_from_matches {F : Type} (parse : String → Option F)
    (matchValue : Option String) : Except CIndexPanic (Option F) :=
  match matchValue with
  | some s =>
    match parse s with
    | some t => .ok (some t)
    | none => .error (.cantConvert s)
  | none => .ok none

/-! ## The consumer thread of the build pipeline (`cindex.rs` lines 306-343) -/

/-- The error kinds of `IndexWriter::add_file` the driver loop
distinguishes (lines 330-336): an I/O error is always warned about, any
other (skip) reason is warned about only under `--logskip`. -/
inductive AddFileErr where
  | ioError (msg : String)
  | skip (msg : String)
deriving DecidableEq, Repr

/-- Observable outcome of the consumer thread: the arguments of the
`add_file` calls it made in order, the warnings it logged, and whether
the final `flush` was reached. -/
structure ConsumerResult where
  calls : List String
  warnings : List String
  flushed : Bool
deriving DecidableEq, Repr

/-- Embedding of the consumer loop (lines 326-340 of `cindex.rs`): for
each path received from the channel, skip it if it is in `seen`;
otherwise call `add_file`, log a warning on error (always for an I/O
error, only under `--logskip` for a skip reason) and continue, then
insert the path into `seen`.  When the channel is exhausted, `flush` is
called.  The `HashSet<OsString>` is modelled as a list with membership. -/
def consumerLoop (addFile : String → Except AddFileErr Unit)
    (logSkipped : Bool) : List String → List String → ConsumerResult
  | _, [] => { calls := [], warnings := [], flushed := true }
  | seen, f :: rest =>
    if f ∈ seen then consumerLoop addFile logSkipped seen rest
    else
      let warn : List String :=
        match addFile f with
        | .error (.ioError m) => [f ++ ": " ++ m]
        | .error (.skip m) => if logSkipped then [f ++ ": skipped. " ++ m] else []
        | .ok _ => []
      let r := consumerLoop addFile logSkipped (f :: seen) rest
      { calls := f :: r.calls, warnings := warn ++ r.warnings, flushed := r.flushed }

/-- The consumer thread run from an empty `seen` set. -/
def runConsumer (addFile : String → Except AddFileErr Unit)
    (logSkipped : Bool) (input : List String) : ConsumerResult :=
  consumerLoop addFile logSkipped [] input

/-! ## IndexWriter configuration (`cindex.rs` lines 306-324) -/

/-- The four configurable `IndexWriter` fields set by the driver.  The
Rust field `max_utf8_invalid` is an `f64`; since the driver only ever
assigns a parsed value to it (no arithmetic), its values are modelled by
`Rat`. -/
structure IndexWriterCfg where
  max_trigram_count : Nat
  max_utf8_invalid : Rat
  max_file_len : Nat
  max_line_len : Nat
deriving DecidableEq, Repr

/-- The parsed values of the four numeric command-line options, `none`
when the option is absent (`get_value_from_matches` returning `none`). -/
structure CIndexOptions where
  maxtrigrams : Option Nat
  maxinvalidutf8ratio : Option Rat
  maxFileLen : Option Nat
  maxLineLen : Option Nat
deriving DecidableEq, Repr

/-- Embedding of lines 312-323 of `cindex.rs`: each option, when present,
overwrites the corresponding field of the writer produced by
`IndexWriter::new`; an absent option leaves the field unchanged. -/
def applyOptions (w : IndexWriterCfg) (o : CIndexOptions) : IndexWriterCfg :=
  let w1 := match o.maxtrigrams with
    | some t => { w with max_trigram_count := t }
    | none => w
  let w2 := match o.maxinvalidutf8ratio with
    | some u => { w1 with max_utf8_invalid := u }
    | none => w1
  let w3 := match o.maxFileLen with
    | some s => { w2 with max_file_len := s }
    | none => w2
  match o.maxLineLen with
  | some b => { w3 with max_line_len := b }
  | none => w3

/-- The consumer thread as spawned in `main`: the writer is created with
its defaults `init`, the four options are applied, and only then does the
receive loop run, every `add_file` call seeing the configured writer. -/
def runBuildThread (init : IndexWriterCfg) (o : CIndexOptions)
    (addFile : IndexWriterCfg → String → Except AddFileErr Unit)
    (logSkipped : Bool) (input : List String) : ConsumerResult :=
  let cfg := applyOptions init o
  runConsumer (addFile cfg) logSkipped input

/-! ## Argument collection (`cindex.rs` lines 223-275) -/

/-- Embedding of the `args` collection in `main`: `args` starts as the
positional path arguments, is extended with the trimmed lines of the
`--filelist` file when that option is given, and, if still empty, is
replaced by the indexed-paths list read from the existing index. -/
def collectArgs (pathArgs : List String) (fileListLines : Option (List String))
    (indexedPaths : List String) : List String :=
  let args := pathArgs ++ (match fileListLines with
    | some ls => ls.map String.trim
    | none => [])
  if args.isEmpty then indexedPaths else args

/-- The `--list` branch of `main` (lines 233-239): it prints exactly the
entries of `indexed_paths()` of the opened index. -/
def listOutput (r : IndexReaderModel) : List String := r.indexedPaths

/-! ## Glob matching (the `glob` crate as used at lines 222 and 356-359) -/

/-- Fuel-indexed glob matcher over character lists, the semantics of
`glob::Pattern::matches` with default `MatchOptions` for patterns built
from literal characters and the wildcards `*` and `?` (no character
classes): `*` matches any character sequence, `?` any single character,
other characters match themselves, and the match is against the ENTIRE
string.  Default options do not treat the path separator or a leading dot
specially.  Every recursive call strictly decreases the total length of
pattern plus string, so fuel `|pat| + |str| + 1` always suffices. -/
def globMatchFuel : Nat → List Char → List Char → Bool
  | 0, _, _ => false
  | fuel + 1, pat, str =>
    match pat, str with
    | [], [] => true
    | [], _ :: _ => false
    | '*' :: ps, [] => globMatchFuel fuel ps []
    | _ :: _, [] => false
    | '*' :: ps, c :: cs =>
      globMatchFuel fuel ps (c :: cs) || globMatchFuel fuel ('*' :: ps) cs
    | '?' :: ps, _ :: cs => globMatchFuel fuel ps cs
    | p :: ps, c :: cs => p == c && globMatchFuel fuel ps cs

/-- `glob::Pattern::matches_path(p)`: the path converted to its full
string form, matched in its entirety against the pattern. -/
def globMatch (pat str : String) : Bool :=
  globMatchFuel (pat.length + str.length + 1) pat.data str.data

/-- The exclude list as initialized at line 222 of `cindex.rs`:
`vec![glob::Pattern::new(".csearchindex").unwrap()]`; patterns from an
`--exclude` file are appended after this initial element. -/
def initialExcludes : List String := [".csearchindex"]

/-! ## Root-path preparation (`cindex.rs` lines 278-292) -/

/-- A path string is absolute when it starts with the path separator
(the driver's unix configuration, where `normalize` is
`fs::canonicalize`). -/
def isAbsolute (p : String) : Bool :=
  match p.data with
  | [] => false
  | c :: _ => c == '/'

/-- `Path::join` of Rust: pushing an absolute path replaces the base. -/
def joinPath (base f : String) : String :=
  if isAbsolute f then f else base ++ "/" ++ f

/-- Byte-wise lexicographic strict order on character lists, the order
underlying `Vec::sort` on the collected paths. -/
def charListLtb : List Char → List Char → Bool
  | [], [] => false
  | [], _ :: _ => true
  | _ :: _, [] => false
  | a :: as, b :: bs => decide (a.toNat < b.toNat) || (a == b && charListLtb as bs)

/-- Non-strict lexicographic order on path strings. -/
def strLeb (a b : String) : Bool := a == b || charListLtb a.data b.data

/-- Insertion into a sorted list, the building block of the model of
`paths.sort()`. -/
def insertSorted (x : String) : List String → List String
  | [] => [x]
  | y :: ys => if strLeb x y then x :: y :: ys else y :: insertSorted x ys

/-- Insertion sort modelling `paths.sort()` at line 292. -/
def sortPaths : List String → List String
  | [] => []
  | x :: xs => insertSorted x (sortPaths xs)

/-- A list of path strings is sorted when each adjacent pair is ordered. -/
def isSortedStr : List String → Bool
  | [] => true
  | [_] => true
  | a :: b :: rest => strLeb a b && isSortedStr (b :: rest)

/-- Embedding of lines 278-292 of `cindex.rs`: drop empty argument
strings, join each remaining argument onto the current directory,
normalize (`fs::canonicalize`, passed in as a partial map since it
consults the filesystem; a failing path is skipped with a warning), and
sort the resulting root list. -/
def preparePaths (cwd : String) (args : List String)
    (normalize : String → Option String) : List String :=
  sortPaths ((args.filter (fun f => !(f == ""))).filterMap
    (fun f => normalize (joinPath cwd f)))

/-! ## The producer loop (`cindex.rs` lines 345-370) -/

/-- What the producer observes about a root path. -/
inductive PathKind where
  | dir
  | file
  | missing
deriving DecidableEq, Repr

/-- The filesystem tree as the producer loop observes it: the kind of
each root path, and, for a directory root, the non-directory entries that
`WalkDir::new(root).follow_links(true)` yields beneath it, in yield order
(readdir order is unspecified by `walkdir`, so the listing is a model
input; each yielded path is the root extended with the entry's subpath).
`filter_entry` applies the exclude predicate to every yielded entry and
prunes excluded directories, so `walkFiles` is read as the non-directory
entries the pruned walk yields, to which the per-entry exclude check of
lines 356-359 is applied below. -/
structure TreeInfo where
  kind : String → PathKind
  walkFiles : String → List String

/-- Embedding of the producer loop: for each root in order, a missing
path is skipped with a warning, a directory root is walked and every
yielded non-directory entry matching no exclude pattern is sent over the
channel, and a plain-file root is sent as is. -/
def producerSends (excludes : List String) (t : TreeInfo)
    (roots : List String) : List String :=
  roots.flatMap fun r =>
    match t.kind r with
    | .dir => (t.walkFiles r).filter
        (fun p => !(excludes.any (fun pat => globMatch pat p)))
    | .file => [r]
    | .missing => []

/-- The whole build pipeline as far as `add_file` is concerned: prepare
the root list, walk it in the producer, and run the consumer on the sent
paths; the result's `calls` field is the sequence of paths handed to
`IndexWriter::add_file`. -/
def cindexAddFileCalls (addFile : String → Except AddFileErr Unit)
    (logSkipped : Bool) (excludes : List String) (t : TreeInfo)
    (cwd : String) (args : List String)
    (normalize : String → Option String) : List String :=
  (runConsumer addFile logSkipped
    (producerSends excludes t (preparePaths cwd args normalize))).calls

/-! ## Filesystem model of index installation (`cindex.rs` lines 294-300 and 373-382) -/

/-- A filesystem: a map from paths to file contents; `none` is absence. -/
def FS : Type := String → Option String

/-- Creating or overwriting a file at `p` with content `v`. -/
def fsWrite (fs : FS) (p v : String) : FS :=
  fun q => if q = p then some v else fs q

/-- `fs::remove_file(p)`. -/
def fsRemove (fs : FS) (p : String) : FS :=
  fun q => if q = p then none else fs q

/-- `fs::rename(src, dst)`: `dst` receives `src`'s content, `src` is
gone. -/
def fsRename (fs : FS) (src dst : String) : FS :=
  fun q => if q = dst then fs src else if q = src then none else fs q

/-- State after the writer flush: when an index already exists at the
default path `D` (the `needs_merge` case, lines 294-300), the driver
appends `~` to the index path, so the new index is built and flushed
entirely at the side path `D ++ "~"`. -/
def fsAfterBuild (fs0 : FS) (D newIdx : String) : FS :=
  fsWrite fs0 (D ++ "~") newIdx

/-- State after `merge(dest, src1, src2)` at line 378 writes the merged
index to `dest = D ++ "~~"` from `src1 = D` and `src2 = D ++ "~"`. -/
def fsAfterMergeWrite (fs0 : FS) (D newIdx merged : String) : FS :=
  fsWrite (fsAfterBuild fs0 D newIdx) (D ++ "~~") merged

/-- State after `fs::remove_file(index_path)` at line 379 removes the
side-built index `D ++ "~"`. -/
def fsAfterRemoveTmp (fs0 : FS) (D newIdx merged : String) : FS :=
  fsRemove (fsAfterMergeWrite fs0 D newIdx merged) (D ++ "~")

/-- State after `fs::remove_file(libcsearch::csearch_index())` at line
380 removes the OLD index at the default path `D`. -/
def fsAfterRemoveOld (fs0 : FS) (D newIdx merged : String) : FS :=
  fsRemove (fsAfterRemoveTmp fs0 D newIdx merged) D

/-- State after `fs::rename(index_path + "~", csearch_index())` at line
381 renames the merged file `D ++ "~~"` to the default path `D`. -/
def fsFinal (fs0 : FS) (D newIdx merged : String) : FS :=
  fsRename (fsAfterRemoveOld fs0 D newIdx merged) (D ++ "~~") D

/-- The filesystem states the needs-merge installation passes through,
in program order. -/
def mergeInstallStates (fs0 : FS) (D newIdx merged : String) : List FS :=
  [fs0, fsAfterBuild fs0 D newIdx, fsAfterMergeWrite fs0 D newIdx merged,
    fsAfterRemoveTmp fs0 D newIdx merged, fsAfterRemoveOld fs0 D newIdx merged,
    fsFinal fs0 D newIdx merged]

/-! ## Helper lemmas about the consumer loop -/

/-- A path is among the `add_file` calls of the consumer loop exactly
when it is in the remaining input and not already seen. -/
theorem consumerLoop_mem_calls (addFile : String → Except AddFileErr Unit)
    (logSkipped : Bool) :
    ∀ (input seen : List String) (p : String),
      p ∈ (consumerLoop addFile logSkipped seen input).calls ↔
        p ∈ input ∧ p ∉ seen := by
  intro input
  induction input with
  | nil => intro seen p; simp [consumerLoop]
  | cons f rest ih =>
    intro seen p
    by_cases hf : f ∈ seen
    · simp only [consumerLoop, if_pos hf]
      rw [ih seen p]
      constructor
      · rintro ⟨hp, hs⟩; exact ⟨List.mem_cons_of_mem _ hp, hs⟩
      · rintro ⟨hp, hs⟩
        rcases List.mem_cons.mp hp with rfl | hp
        · exact absurd hf hs
        · exact ⟨hp, hs⟩
    · simp only [consumerLoop, if_neg hf, List.mem_cons]
      rw [ih (f :: seen) p]
      constructor
      · rintro (rfl | ⟨hp, hs⟩)
        · exact ⟨Or.inl rfl, hf⟩
        · exact ⟨Or.inr hp, fun hm => hs (List.mem_cons_of_mem _ hm)⟩
      · rintro ⟨rfl | hp, hs⟩
        · exact Or.inl rfl
        · by_cases hpf : p = f
          · exact Or.inl hpf
          · exact Or.inr ⟨hp, fun hm => by
              rcases List.mem_cons.mp hm with h | h
              · exact hpf h
              · exact hs h⟩

/-- The `add_file` call list of the consumer loop has no duplicates. -/
theorem consumerLoop_calls_nodup (addFile : String → Except AddFileErr Unit)
    (logSkipped : Bool) :
    ∀ (input seen : List String),
      (consumerLoop addFile logSkipped seen input).calls.Nodup := by
  intro input
  induction input with
  | nil => intro seen; simp [consumerLoop]
  | cons f rest ih =>
    intro seen
    by_cases hf : f ∈ seen
    · simpa [consumerLoop, if_pos hf] using ih seen
    · simp only [consumerLoop, if_neg hf]
      refine List.nodup_cons.mpr ⟨fun hmem => ?_, ih (f :: seen)⟩
      have := (consumerLoop_mem_calls addFile logSkipped rest (f :: seen) f).mp hmem
      exact this.2 (List.mem_cons_self f seen)

/-- The consumer loop always reaches the end of its input, so the final
`flush` is always attempted. -/
theorem consumerLoop_flushed (addFile : String → Except AddFileErr Unit)
    (logSkipped : Bool) :
    ∀ (input seen : List String),
      (consumerLoop addFile logSkipped seen input).flushed = true := by
  intro input
  induction input with
  | nil => intro seen; rfl
  | cons f rest ih =>
    intro seen
    by_cases hf : f ∈ seen
    · simpa [consumerLoop, if_pos hf] using ih seen
    · simp only [consumerLoop, if_neg hf]
      exact ih (f :: seen)

/-- The sequence of `add_file` calls does not depend on the per-file
results of `add_file` nor on the logging flag. -/
theorem consumerLoop_calls_indep
    (af1 af2 : String → Except AddFileErr Unit) (ls1 ls2 : Bool) :
    ∀ (input seen : List String),
      (consumerLoop af1 ls1 seen input).calls =
        (consumerLoop af2 ls2 seen input).calls := by
  intro input
  induction input with
  | nil => intro seen; rfl
  | cons f rest ih =>
    intro seen
    by_cases hf : f ∈ seen
    · simpa [consumerLoop, if_pos hf] using ih seen
    · simp only [consumerLoop, if_neg hf]
      rw [ih (f :: seen)]

/-! ## Helper lemmas about path preparation and the producer -/

/-- Membership in an insertion is membership in the parts. -/
theorem mem_insertSorted (x p : String) :
    ∀ (l : List String), p ∈ insertSorted x l ↔ p = x ∨ p ∈ l := by
  intro l
  induction l with
  | nil => simp [insertSorted]
  | cons y ys ih =>
    by_cases h : strLeb x y = true
    · simp [insertSorted, h, List.mem_cons]
    · simp only [insertSorted, if_neg h, List.mem_cons, ih]
      tauto

/-- Sorting does not change membership. -/
theorem mem_sortPaths (p : String) :
    ∀ (l : List String), p ∈ sortPaths l ↔ p ∈ l := by
  intro l
  induction l with
  | nil => simp [sortPaths]
  | cons x xs ih => simp [sortPaths, mem_insertSorted, ih]

/-- Extending an absolute path keeps it absolute. -/
theorem isAbsolute_append (r s : String) (h : isAbsolute r = true) :
    isAbsolute (r ++ s) = true := by
  unfold isAbsolute at h ⊢
  rw [String.data_append]
  cases hr : r.data with
  | nil => rw [hr] at h; simp at h
  | cons c cs => rw [hr] at h; simpa using h

/-- Every prepared root is an output of `normalize`; under canonicalize's
contract that outputs are absolute, every prepared root is absolute. -/
theorem mem_preparePaths_absolute (cwd : String) (args : List String)
    (normalize : String → Option String)
    (habs : ∀ p q, normalize p = some q → isAbsolute q = true) :
    ∀ r ∈ preparePaths cwd args normalize, isAbsolute r = true := by
  intro r hr
  rw [preparePaths, mem_sortPaths] at hr
  obtain ⟨a, _, ha⟩ := List.mem_filterMap.mp hr
  exact habs _ _ ha

/-- A path sent by the producer comes from a root: either a walked
non-directory entry beneath a directory root, or a plain-file root
itself. -/
theorem mem_producerSends (excludes : List String) (t : TreeInfo)
    (roots : List String) (p : String)
    (hp : p ∈ producerSends excludes t roots) :
    ∃ r ∈ roots,
      (t.kind r = .dir ∧ p ∈ t.walkFiles r) ∨ (t.kind r = .file ∧ p = r) := by
  rw [producerSends, List.mem_flatMap] at hp
  obtain ⟨r, hr, hpr⟩ := hp
  refine ⟨r, hr, ?_⟩
  cases hk : t.kind r with
  | dir =>
    rw [hk] at hpr
    exact Or.inl ⟨rfl, (List.mem_filter.mp hpr).1⟩
  | file =>
    rw [hk] at hpr
    simp only [List.mem_singleton] at hpr
    exact Or.inr ⟨rfl, hpr⟩
  | missing => rw [hk] at hpr; simp at hpr

/-! ## Theorems for the definitions above -/

/-- A tree with a single directory root `/a` whose walk yields its two
files in non-lexicographic readdir order, a legal order for `walkdir`. -/
def exTreeUnsorted : TreeInfo where
  kind := fun p => if p == "/a" then PathKind.dir else PathKind.missing
  walkFiles := fun r => if r == "/a" then ["/a/z", "/a/b"] else []

/-- A normalize map that is the identity on the already-canonical root
used in the counterexample. -/
def exNormalizeId : String → Option String := fun p => some p

/-- C2, counterexample: the driver sorts only the top-level roots; the
files yielded by the directory walk are forwarded in walk order, so with
a walk that yields `/a/z` before `/a/b` the sequence handed to `add_file`
is not sorted, refuting the claim that the sequence is sorted in
lexicographic order. -/
theorem add_file_calls_not_sorted :
    cindexAddFileCalls (fun _ => .ok ()) false initialExcludes
      exTreeUnsorted "/" ["/a"] exNormalizeId = ["/a/z", "/a/b"] ∧
    isSortedStr (cindexAddFileCalls (fun _ => .ok ()) false initialExcludes
      exTreeUnsorted "/" ["/a"] exNormalizeId) = false := by decide

/-- C2 as amended: over one whole build, the sequence of file paths the
driver hands to `add_file` consists of absolute paths and contains no
duplicate, given canonicalize's contract that normalized roots are
absolute and walkdir's contract that walked entries extend their root;
the sequence is NOT necessarily sorted (only the roots are sorted; walk
output is forwarded in walk order). -/
theorem add_file_calls_absolute_nodup :
    ∀ (addFile : String → Except AddFileErr Unit) (logSkipped : Bool)
      (excludes : List String) (t : TreeInfo) (cwd : String)
      (args : List String) (normalize : String → Option String),
      (∀ p q, normalize p = some q → isAbsolute q = true) →
      (∀ r p, p ∈ t.walkFiles r → ∃ s, p = r ++ s) →
      (cindexAddFileCalls addFile logSkipped excludes t cwd args
        normalize).Nodup ∧
      ∀ p, p ∈ cindexAddFileCalls addFile logSkipped excludes t cwd args
        normalize → isAbsolute p = true := by
  intro addFile logSkipped excludes t cwd args normalize habs hwalk
  constructor
  · exact consumerLoop_calls_nodup addFile logSkipped _ []
  · intro p hp
    rw [cindexAddFileCalls, runConsumer,
      consumerLoop_mem_calls addFile logSkipped _ [] p] at hp
    obtain ⟨r, hr, hcase⟩ := mem_producerSends _ _ _ _ hp.1
    have hrabs : isAbsolute r = true :=
      mem_preparePaths_absolute cwd args normalize habs r hr
    rcases hcase with ⟨_, hw⟩ | ⟨_, rfl⟩
    · obtain ⟨s, rfl⟩ := hwalk r p hw
      exact isAbsolute_append r s hrabs
    · exact hrabs

/-- A tree where every root is a directory and the walk yields two
entries extending the root. -/
def exTreeWalkTwo : TreeInfo where
  kind := fun _ => PathKind.dir
  walkFiles := fun r => [r ++ "/f", r ++ "/g"]

/-- A normalize map with a fixed absolute canonical output. -/
def exNormalizeConst : String → Option String := fun _ => some "/base"

/-- Witness for the amended C2: a concrete build whose hypotheses hold. -/
theorem add_file_calls_absolute_nodup_witness :
    (cindexAddFileCalls (fun _ => .ok ()) false initialExcludes
      exTreeWalkTwo "/" ["x"] exNormalizeConst).Nodup ∧
    ∀ p, p ∈ cindexAddFileCalls (fun _ => .ok ()) false initialExcludes
      exTreeWalkTwo "/" ["x"] exNormalizeConst → isAbsolute p = true := by
  refine add_file_calls_absolute_nodup (fun _ => .ok ()) false
    initialExcludes exTreeWalkTwo "/" ["x"] exNormalizeConst ?_ ?_
  · intro p q h
    obtain rfl := Option.some.inj h
    decide
  · intro r p hp
    rcases List.mem_cons.mp hp with rfl | hp
    · exact ⟨"/f", rfl⟩
    · rcases List.mem_cons.mp hp with rfl | hp
      · exact ⟨"/g", rfl⟩
      · simp at hp

/-- A tree with one directory root `/home/user` beneath which the walk
yields the default index file `/home/user/.csearchindex`. -/
def exTreeWithIndex : TreeInfo where
  kind := fun p => if p == "/home/user" then PathKind.dir else PathKind.missing
  walkFiles := fun r =>
    if r == "/home/user" then ["/home/user/.csearchindex"] else []

/-- C9: the exclude list always contains `.csearchindex` (line 222, user
excludes appended after), and `filter_entry` drops entries whose path
matches it — but `glob::Pattern::matches_path` matches the pattern
against the ENTIRE path string, and walked entries carry absolute paths,
so the pattern matches only the bare relative name and never an absolute
walked path: a walk over `/home/user` sends the index file
`/home/user/.csearchindex` to the Writer even though the pattern is in
the exclude list.  The built-in exclusion the code clearly intends is
thus ineffective. -/
theorem exclude_misses_absolute_index_path :
    globMatch ".csearchindex" ".csearchindex" = true ∧
    globMatch ".csearchindex" "/home/user/.csearchindex" = false ∧
    producerSends initialExcludes exTreeWithIndex ["/home/user"] =
      ["/home/user/.csearchindex"] := by decide

/-- A filesystem holding only an old index at the default path. -/
def exFS0 : FS :=
  fun q => if q = "/home/u/.csearchindex" then some "oldindex" else none

/-- C1, counterexample: the installation is remove-then-rename, not a
single atomic rename over the old path — after line 380 removes the old
index and before line 381 renames the merged file into place, the default
path holds no file at all, refuting the claim that at no point is the
index file at the default path absent while being replaced. -/
theorem default_path_absent_during_install :
    fsAfterRemoveOld exFS0 "/home/u/.csearchindex" "newidx" "mergedidx"
      "/home/u/.csearchindex" = none ∧
    (mergeInstallStates exFS0 "/home/u/.csearchindex" "newidx" "mergedidx").any
      (fun fs => (fs "/home/u/.csearchindex").isNone) = true := by decide

/-- C1 as amended: when an index exists at the default path `D`, the new
index is built entirely at the side path `D ++ "~"` and the merged result
at `D ++ "~~"`; the file at `D` is never mutated in place — through build
and merge it still holds the old index, and at every point of the
installation it holds either the old index, nothing, or the finished
merged index — but installation is remove-then-rename: the old index is
removed from `D` before the merged file is renamed over it, leaving `D`
briefly absent; the final state has the merged index at `D` and both side
files gone. -/
theorem merge_install_never_mutates_in_place :
    ∀ (fs0 : FS) (D newIdx merged old : String),
      fs0 D = some old →
      fsAfterBuild fs0 D newIdx D = some old ∧
      fsAfterMergeWrite fs0 D newIdx merged D = some old ∧
      fsAfterRemoveTmp fs0 D newIdx merged D = some old ∧
      fsAfterRemoveOld fs0 D newIdx merged D = none ∧
      fsFinal fs0 D newIdx merged D = some merged ∧
      fsFinal fs0 D newIdx merged (D ++ "~") = none ∧
      fsFinal fs0 D newIdx merged (D ++ "~~") = none ∧
      (∀ fs ∈ mergeInstallStates fs0 D newIdx merged,
        fs D = some old ∨ fs D = none ∨ fs D = some merged) := by
  intro fs0 D newIdx merged old h0
  have l1 : ("~" : String).length = 1 := rfl
  have l2 : ("~~" : String).length = 2 := rfl
  have h1 : D ≠ D ++ "~" := fun he => by
    have hl := congrArg String.length he
    rw [String.length_append, l1] at hl
    omega
  have h2 : D ≠ D ++ "~~" := fun he => by
    have hl := congrArg String.length he
    rw [String.length_append, l2] at hl
    omega
  have h3 : D ++ "~~" ≠ D ++ "~" := fun he => by
    have hl := congrArg String.length he
    rw [String.length_append, String.length_append, l1, l2] at hl
    omega
  have cBuild : fsAfterBuild fs0 D newIdx D = some old := by
    rw [fsAfterBuild, fsWrite, if_neg h1]
    exact h0
  have cMerge : fsAfterMergeWrite fs0 D newIdx merged D = some old := by
    rw [fsAfterMergeWrite, fsWrite, if_neg h2]
    exact cBuild
  have cRmTmp : fsAfterRemoveTmp fs0 D newIdx merged D = some old := by
    rw [fsAfterRemoveTmp, fsRemove, if_neg h1]
    exact cMerge
  have cRmOld : fsAfterRemoveOld fs0 D newIdx merged D = none := by
    rw [fsAfterRemoveOld, fsRemove, if_pos rfl]
  have cFinalD : fsFinal fs0 D newIdx merged D = some merged := by
    rw [fsFinal, fsRename, if_pos rfl, fsAfterRemoveOld, fsRemove,
      if_neg h2.symm, fsAfterRemoveTmp, fsRemove, if_neg h3,
      fsAfterMergeWrite, fsWrite, if_pos rfl]
  have cFinalTmp : fsFinal fs0 D newIdx merged (D ++ "~") = none := by
    rw [fsFinal, fsRename, if_neg h1.symm, if_neg h3.symm,
      fsAfterRemoveOld, fsRemove, if_neg h1.symm, fsAfterRemoveTmp,
      fsRemove, if_pos rfl]
  have cFinalTmp2 : fsFinal fs0 D newIdx merged (D ++ "~~") = none := by
    rw [fsFinal, fsRename, if_neg h2.symm, if_pos rfl]
  refine ⟨cBuild, cMerge, cRmTmp, cRmOld, cFinalD, cFinalTmp, cFinalTmp2,
    fun fs hfs => ?_⟩
  simp only [mergeInstallStates, List.mem_cons, List.not_mem_nil,
    or_false] at hfs
  rcases hfs with rfl | rfl | rfl | rfl | rfl | rfl
  · exact Or.inl h0
  · exact Or.inl cBuild
  · exact Or.inl cMerge
  · exact Or.inl cRmTmp
  · exact Or.inr (Or.inl cRmOld)
  · exact Or.inr (Or.inr cFinalD)

/-- Witness for the amended C1: the concrete installation ends with the
merged index at the default path. -/
theorem merge_install_never_mutates_in_place_witness :
    fsFinal exFS0 "/home/u/.csearchindex" "newidx" "mergedidx"
      "/home/u/.csearchindex" = some "mergedidx" :=
  (merge_install_never_mutates_in_place exFS0 "/home/u/.csearchindex"
    "newidx" "mergedidx" "oldindex" (by decide)).2.2.2.2.1

/-- C3: for every sequence of paths received over the build channel and
every behaviour of `add_file`, the consumer calls `add_file` at most once
per distinct path — the call list has no duplicates, a path equal to one
already seen is skipped before `add_file` is invoked — and a call is made
exactly for the distinct paths received. -/
theorem consumer_dedups_before_add_file :
    ∀ (addFile : String → Except AddFileErr Unit) (logSkipped : Bool)
      (input : List String),
      (runConsumer addFile logSkipped input).calls.Nodup ∧
      (∀ p, (runConsumer addFile logSkipped input).calls.count p ≤ 1) ∧
      (∀ p, p ∈ (runConsumer addFile logSkipped input).calls ↔ p ∈ input) := by
  intro addFile logSkipped input
  have hnd := consumerLoop_calls_nodup addFile logSkipped input []
  refine ⟨hnd, fun p => List.nodup_iff_count_le_one.mp hnd p, fun p => ?_⟩
  rw [runConsumer, consumerLoop_mem_calls addFile logSkipped input [] p]
  simp

/-- C4: a path whose `add_file` call errors (I/O failure or skip reason)
does not abort the build: the consumer makes exactly the same sequence of
`add_file` calls whatever the per-file results are, and the final `flush`
is always attempted. -/
theorem consumer_tolerates_add_file_errors :
    ∀ (af1 af2 : String → Except AddFileErr Unit) (ls1 ls2 : Bool)
      (input : List String),
      (runConsumer af1 ls1 input).flushed = true ∧
      (runConsumer af1 ls1 input).calls = (runConsumer af2 ls2 input).calls := by
  intro af1 af2 ls1 ls2 input
  exact ⟨consumerLoop_flushed af1 ls1 input [],
    consumerLoop_calls_indep af1 af2 ls1 ls2 input []⟩

/-- C8: each of the four recognized numeric options, when present with a
parsed value, sets exactly the corresponding `IndexWriter` field, and
when absent leaves the writer default unchanged; the configuration is
fixed before the receive loop runs, so every `add_file` call sees the
configured writer. -/
theorem options_set_writer_fields :
    ∀ (init : IndexWriterCfg) (o : CIndexOptions),
      (applyOptions init o).max_trigram_count =
        o.maxtrigrams.getD init.max_trigram_count ∧
      (applyOptions init o).max_utf8_invalid =
        o.maxinvalidutf8ratio.getD init.max_utf8_invalid ∧
      (applyOptions init o).max_file_len =
        o.maxFileLen.getD init.max_file_len ∧
      (applyOptions init o).max_line_len =
        o.maxLineLen.getD init.max_line_len ∧
      (∀ af ls input, runBuildThread init o af ls input =
        runConsumer (af (applyOptions init o)) ls input) := by
  intro init o
  obtain ⟨a, b, c, d⟩ := o
  refine ⟨?_, ?_, ?_, ?_, fun af ls input => rfl⟩ <;>
    cases a <;> cases b <;> cases c <;> cases d <;>
    simp [applyOptions, Option.getD]

/-- C5: when cindex is invoked with no path arguments and no `--filelist`
option, the root list it submits for re-indexing is exactly the
indexed-paths list recorded in the existing index, the same list the
`--list` branch prints. -/
theorem no_args_reindexes_indexed_paths :
    ∀ (r : IndexReaderModel),
      collectArgs [] none r.indexedPaths = r.indexedPaths ∧
      collectArgs [] none r.indexedPaths = listOutput r := by
  intro r
  exact ⟨rfl, rfl⟩

/-- C6: `csearch_index` returns the value of `CSEARCHINDEX` whenever it is
set; otherwise it returns `HOME` (or, failing that, `USERPROFILE`) with
"/.csearchindex" appended; when none of the three variables is set it
fails (the `expect` panic, modelled as `none`) rather than returning a
path. -/
theorem csearch_index_env_cases :
    ∀ (e1 e2 e3 e4 : String → Option String) (v h u : String),
      (e1 "CSEARCHINDEX" = some v → csearch_index e1 = some v) ∧
      (e2 "CSEARCHINDEX" = none → e2 "HOME" = some h →
        csearch_index e2 = some (h ++ "/.csearchindex")) ∧
      (e3 "CSEARCHINDEX" = none → e3 "HOME" = none →
        e3 "USERPROFILE" = some u →
        csearch_index e3 = some (u ++ "/.csearchindex")) ∧
      (e4 "CSEARCHINDEX" = none → e4 "HOME" = none →
        e4 "USERPROFILE" = none → csearch_index e4 = none) := by
  intro e1 e2 e3 e4 v h u
  refine ⟨fun h1 => ?_, fun h1 h2 => ?_, fun h1 h2 h3 => ?_,
    fun h1 h2 h3 => ?_⟩ <;>
    simp [csearch_index, *]

/-- Environment where only `CSEARCHINDEX` is set. -/
def envOnlyCsearch : String → Option String :=
  fun s => if s = "CSEARCHINDEX" then some "/tmp/idx" else none

/-- Environment where only `HOME` is set. -/
def envOnlyHome : String → Option String :=
  fun s => if s = "HOME" then some "/home/u" else none

/-- Environment where only `USERPROFILE` is set. -/
def envOnlyProfile : String → Option String :=
  fun s => if s = "USERPROFILE" then some "/prof" else none

/-- Environment with none of the three variables set. -/
def envEmpty : String → Option String := fun _ => none

/-- Witness for C6: the four cases evaluated at concrete environments. -/
theorem csearch_index_env_cases_witness :
    csearch_index envOnlyCsearch = some "/tmp/idx" ∧
    csearch_index envOnlyHome = some "/home/u/.csearchindex" ∧
    csearch_index envOnlyProfile = some "/prof/.csearchindex" ∧
    csearch_index envEmpty = none := by
  obtain ⟨h1, h2, h3, h4⟩ :=
    csearch_index_env_cases envOnlyCsearch envOnlyHome envOnlyProfile
      envEmpty "/tmp/idx" "/home/u" "/prof"
  exact ⟨h1 (by decide), h2 (by decide) (by decide),
    h3 (by decide) (by decide) (by decide),
    h4 (by decide) (by decide) (by decide)⟩

/-- C7: if opening the index for a query-side operation fails for any
reason, `open_index_or_fail` reports the error and terminates the process
with nonzero exit status 101; a reader is returned only when the open
succeeded, so no query-side operation proceeds without a successfully
opened index. -/
theorem open_index_or_fail_spec :
    ∀ (res : Except String IndexReaderModel),
      ((∃ i, open_index_or_fail res = .ok i) ↔ (∃ i, res = .ok i)) ∧
      (∀ e, res = .error e →
        open_index_or_fail res = .error 101 ∧ (101 : Nat) ≠ 0) ∧
      (∀ i, res = .ok i → open_index_or_fail res = .ok i) := by
  intro res
  refine ⟨?_, fun e he => ?_, fun i hi => ?_⟩
  · cases res with
    | ok i => simp [open_index_or_fail]
    | error e => simp [open_index_or_fail]
  · subst he; exact ⟨rfl, by decide⟩
  · subst hi; rfl

/-- Witness for C7: a concrete failed open exits with status 101. -/
theorem open_index_or_fail_spec_witness :
    open_index_or_fail (.error "no such file") = .error 101 ∧
    (101 : Nat) ≠ 0 :=
  (open_index_or_fail_spec (.error "no such file")).2.1 "no such file" rfl

/-- Decimal natural-number parse over the characters of a string, the
shape of Rust `str::parse::<u64>` for plain digit strings: at least one
character, all characters decimal digits. -/
def parseNat? (s : String) : Option Nat :=
  if s.data ≠ [] ∧ s.data.all (fun c => c.isDigit) then
    some (s.data.foldl (fun n c => n * 10 + (c.toNat - 48)) 0)
  else none

/-- C10: for a numeric command-line option, a value string that does not
parse as the expected numeric type makes `get_value_from_matches` panic
with the cant-convert message naming the value, rather than the value
being silently ignored (`ok none`) or replaced by a default. -/
theorem get_value_from_matches_panics_on_bad_value :
    ∀ (F : Type) (parse : String → Option F) (s : String),
      parse s = none →
      get_value_from_matches parse (some s) = .error (.cantConvert s) := by
  intro F parse s h
  simp [get_value_from_matches, h]

/-- Witness for C10: the string "abc" does not parse as a `u64`-style
natural number, and the driver panics on it. -/
theorem get_value_from_matches_panics_on_bad_value_witness :
    parseNat? "abc" = none ∧
    get_value_from_matches parseNat? (some "abc") =
      .error (.cantConvert "abc") :=
  ⟨by decide,
    get_value_from_matches_panics_on_bad_value Nat parseNat? "abc"
      (by decide)⟩
